/-
Verification of the magpylib vectorized field-evaluation wrapper
(`getBHv_level2` in src/magpylib/_lib/fields/field_wrap_BH_v.py) and of the
`Collection` class (src/magpylib/_lib/obj_classes/class_Collection.py).

The embedding models numpy arrays as finitely nested arrays of rationals
(`NDArr`), keyword-argument dictionaries as maps `String → Option Val`, and
Python exceptions as `Except String` results.  `MagpylibBadUserInput`
exceptions are modelled as `Except.error msg`; the Python `str(KeyError)`
quoting of key names is dropped from the modelled messages (the message text
still contains the key name), and `str(set(ns))` is rendered as the list of
distinct lengths in first-occurrence order.

`getBH_level1` is not part of the excerpted sources; the wrapper is therefore
parameterized over it, so that theorems can quantify over every possible
kernel stage and thereby express "the kernel is never invoked".
-/
import Mathlib

/-- A numpy ndarray of floats, modelled as a finitely nested array of
rationals.  `np.array(x, dtype=float)` coercion of a well-formed nested
list is the identity on this representation. -/
inductive NDArr where
  | scalar : ℚ → NDArr
  | arr : List NDArr → NDArr
deriving Repr

/-- `ndim` of an ndarray: nesting depth along the first component,
matching numpy `ndim` on regular (non-ragged) arrays. -/
def NDArr.ndim : NDArr → Nat
  | .scalar _ => 0
  | .arr [] => 1
  | .arr (x :: _) => 1 + NDArr.ndim x

/-- Python `len` of an ndarray (length of the leading axis; `len` of a
0-d array is a TypeError in numpy, modelled as the junk value 0 — the
wrapper only applies `len` to arrays whose `ndim` equals their declared
tile dimension, which is at least 1). -/
def NDArr.len : NDArr → Nat
  | .scalar _ => 0
  | .arr xs => xs.length

/-- The row obtained from a value of `ndim ≤ 1` when `np.tile(val,(n,1))`
promotes it to two dimensions. -/
def NDArr.asRow : NDArr → NDArr
  | .scalar x => .arr [.scalar x]
  | .arr xs => .arr xs

/-- `np.tile(val, (n,1))` for `val` of `ndim ≤ 1`: an array of `n`
identical rows. -/
def tile2 (v : NDArr) (n : Nat) : NDArr :=
  .arr (List.replicate n v.asRow)

/-- `np.array([val]*n)`: an array of `n` identical entries. -/
def tile1 (v : NDArr) (n : Nat) : NDArr :=
  .arr (List.replicate n v)

mutual
/-- `np.squeeze`: removes every axis of length 1 (modelled from the numpy
semantics used at the end of `getBHv_level2`). -/
def npSqueeze : NDArr → NDArr
  | .scalar x => .scalar x
  | .arr [x] => npSqueeze x
  | .arr xs => .arr (npSqueezeList xs)

def npSqueezeList : List NDArr → List NDArr
  | [] => []
  | x :: xs => npSqueeze x :: npSqueezeList xs
end

/-- A Python value appearing in the keyword arguments of `getBHv_level2`:
a numeric array (list/tuple/ndarray), a scipy `Rotation` (carried as its
quaternion array, so `R.from_quat` / `as_quat` are the evident maps), a
boolean, or a string. -/
inductive Val where
  | arr : NDArr → Val
  | rot : NDArr → Val
  | bool : Bool → Val
  | str : String → Val
deriving Repr

/-- A Python keyword-argument dictionary: a finite map from names to
values, modelled extensionally (Python functions called with `**kwargs`
observe only the mapping, not any ordering). -/
def Kw : Type := String → Option Val

/-- `np.array(v, dtype=float)` on a kwargs value.  Non-array values are
mapped to junk (the wrapper is only specified on numeric inputs). -/
def coerceArr : Val → NDArr
  | .arr a => a
  | .rot q => q
  | .bool b => .scalar (if b then 1 else 0)
  | .str _ => .scalar 0

/-- The `source_type` tag of a kwargs value: Python compares it to the six
type strings with `==`, so every non-string value behaves like a tag
matching none of them (modelled as `""`). -/
def tagOf : Val → String
  | .str s => s
  | _ => ""

/-- Default position `(0,0,0)` (line 48 of field_wrap_BH_v.py). -/
def defaultPos : NDArr := .arr [.scalar 0, .scalar 0, .scalar 0]

/-- Default orientation quaternion `(0,0,0,1)` (line 51). -/
def defaultQuat : NDArr := .arr [.scalar 0, .scalar 0, .scalar 0, .scalar 1]

/-- `np.array(kwargs.get('position', (0,0,0)), dtype=float)`. -/
def posOf (kw : Kw) : NDArr :=
  match kw "position" with
  | some v => coerceArr v
  | none => defaultPos

/-- `kwargs.get('orientation', R.from_quat((0,0,0,1))).as_quat()`. -/
def quatOf (kw : Kw) : NDArr :=
  match kw "orientation" with
  | some (.rot q) => q
  | some v => coerceArr v
  | none => defaultQuat

/-- `kwargs.get('squeeze', True)` (non-boolean values are out of the
modelled domain and read as `true`). -/
def squeezeOf (kw : Kw) : Bool :=
  match kw "squeeze" with
  | some (.bool b) => b
  | _ => true

/-- The `MagpylibBadUserInput` message raised for a missing mandatory
key (line 94: `f'Missing input keys: {str(kerr)}'`). -/
def missingMsg (k : String) : String := "Missing input keys: " ++ k

/-- The `MagpylibBadUserInput` message raised for mismatched explicit
batch lengths (line 102), rendering the set of distinct lengths. -/
def lenMsg (lens : List Nat) : String :=
  "getBHv() bad array input lengths: " ++ toString lens.dedup

/-- The source-type specific part of the `tile_params` construction
(lines 57-91): each branch reads its mandatory keys in source order and
appends `(key, value, tdim)` entries; a missing key raises the KeyError
that becomes a `MagpylibBadUserInput`. -/
def mkBranch (kw : Kw) (st : String) (base : List (String × NDArr × Nat)) :
    Except String (List (String × NDArr × Nat)) :=
  if st = "Box" then
    match kw "magnetization", kw "dimension" with
    | some m, some d =>
        .ok (base ++ [("magnetization", coerceArr m, 2), ("dimension", coerceArr d, 2)])
    | none, _ => .error (missingMsg "magnetization")
    | some _, none => .error (missingMsg "dimension")
  else if st = "Cylinder" then
    match kw "magnetization", kw "dimension" with
    | some m, some d =>
        .ok (base ++ [("magnetization", coerceArr m, 2), ("dimension", coerceArr d, 2)])
    | none, _ => .error (missingMsg "magnetization")
    | some _, none => .error (missingMsg "dimension")
  else if st = "Sphere" then
    match kw "magnetization", kw "diameter" with
    | some m, some d =>
        .ok (base ++ [("magnetization", coerceArr m, 2), ("diameter", coerceArr d, 1)])
    | none, _ => .error (missingMsg "magnetization")
    | some _, none => .error (missingMsg "diameter")
  else if st = "Dipole" then
    match kw "moment" with
    | some m => .ok (base ++ [("moment", coerceArr m, 2)])
    | none => .error (missingMsg "moment")
  else if st = "Circular" then
    match kw "current", kw "diameter" with
    | some c, some d =>
        .ok (base ++ [("current", coerceArr c, 1), ("diameter", coerceArr d, 1)])
    | none, _ => .error (missingMsg "current")
    | some _, none => .error (missingMsg "diameter")
  else if st = "Line" then
    match kw "current", kw "segment_start", kw "segment_end" with
    | some c, some s, some e =>
        .ok (base ++ [("current", coerceArr c, 1),
                      ("segment_start", coerceArr s, 2), ("segment_end", coerceArr e, 2)])
    | none, _, _ => .error (missingMsg "current")
    | some _, none, _ => .error (missingMsg "segment_start")
    | some _, some _, none => .error (missingMsg "segment_end")
  else
    .ok base

/-- The `tile_params` dict built by lines 38-95 of field_wrap_BH_v.py, in
insertion order, or the first `MagpylibBadUserInput` missing-key error. -/
def buildTileParams (kw : Kw) : Except String (List (String × NDArr × Nat)) :=
  match kw "source_type" with
  | none => .error (missingMsg "source_type")
  | some stv =>
    match kw "observer" with
    | none => .error (missingMsg "observer")
    | some ov =>
      mkBranch kw (tagOf stv)
        [("observer", coerceArr ov, 2), ("position", posOf kw, 2),
         ("orientation", quatOf kw, 2)]

/-- `ns = [len(val) for val,tdim in tile_params.values() if val.ndim == tdim]`
(line 100): the lengths of the explicit-batch inputs. -/
def explicitLens (tps : List (String × NDArr × Nat)) : List Nat :=
  tps.filterMap (fun e => if e.2.1.ndim = e.2.2 then some e.2.1.len else none)

/-- `max(ns, default=1)` (line 104). -/
def maxD1 : List Nat → Nat
  | [] => 1
  | x :: xs => xs.foldl Nat.max x

/-- One step of the tiling loop body (lines 107-114): the value stored
back into `kwargs[key]`. -/
def tileVal (v : NDArr) (tdim n : Nat) : NDArr :=
  if v.ndim < tdim then
    if tdim = 2 then tile2 v n else tile1 v n
  else v

/-- The tiling loop (lines 107-114): each `tile_params` entry overwrites
`kwargs[key]` with its (possibly tiled) array. -/
def applyTiles (kw : Kw) (tps : List (String × NDArr × Nat)) (n : Nat) : Kw :=
  tps.foldl (fun m e => Function.update m e.1 (some (.arr (tileVal e.2.1 e.2.2 n)))) kw

/-- `kwargs['orientation'] = R.from_quat(kwargs['orientation'])` (line 117). -/
def wrapOrientation (m : Kw) : Kw :=
  match m "orientation" with
  | some (.arr q) => Function.update m "orientation" (some (.rot q))
  | _ => m

/-- The normalization stage of `getBHv_level2` (everything before the
`getBH_level1` call, lines 38-117): either a `MagpylibBadUserInput` error,
or the tiled kwargs dictionary together with the `squeeze` flag. -/
def normalizeKw (kw : Kw) : Except String (Kw × Bool) :=
  match buildTileParams kw with
  | .error e => .error e
  | .ok tps =>
    if 1 < (explicitLens tps).dedup.length then .error (lenMsg (explicitLens tps))
    else .ok (wrapOrientation (applyTiles kw tps (maxD1 (explicitLens tps))), squeezeOf kw)

/-- `getBHv_level2` (lines 9-124), parameterized over the `getBH_level1`
kernel stage (whose source is not part of the excerpt): normalizeKw, call
the kernel on the tiled kwargs, and squeeze the result if requested. -/
def getBHv_level2 (level1 : Kw → NDArr) (kw : Kw) : Except String NDArr :=
  match normalizeKw kw with
  | .error e => .error e
  | .ok (m, sq) => .ok (if sq then npSqueeze (level1 m) else level1 m)

/-- The mandatory keys of each source type (§4.1 of the spec; the keys
read inside the `try` block of lines 41-91). -/
def mandatoryKeys (st : String) : List String :=
  ["source_type", "observer"] ++
  (if st = "Box" then ["magnetization", "dimension"]
   else if st = "Cylinder" then ["magnetization", "dimension"]
   else if st = "Sphere" then ["magnetization", "diameter"]
   else if st = "Dipole" then ["moment"]
   else if st = "Circular" then ["current", "diameter"]
   else if st = "Line" then ["current", "segment_start", "segment_end"]
   else [])

/-- The six recognized source-type tags. -/
def knownSrcTypes : List String :=
  ["Box", "Cylinder", "Sphere", "Dipole", "Circular", "Line"]

/-- How a normalized tile-params array appears in the kwargs handed to
`getBH_level1`: the `orientation` entry is re-wrapped into a `Rotation`
object (line 117), every other entry stays a plain array. -/
def wrapKey (k : String) (a : NDArr) : Val :=
  if k = "orientation" then .rot a else .arr a

/-
Analytical kernels (§4.4 of the spec).  The kernel sources are not part of
the excerpted repository; they are modelled from the spec over exact real
arithmetic.
-/

/-- A 3-vector over the reals. -/
abbrev V3 : Type := ℝ × ℝ × ℝ

/-- Euclidean dot product on `V3`. -/
def dot3 (u v : V3) : ℝ := u.1 * v.1 + u.2.1 * v.2.1 + u.2.2 * v.2.2

/-- Cross product on `V3`. -/
def cross3 (u v : V3) : V3 :=
  (u.2.1 * v.2.2 - u.2.2 * v.2.1, u.2.2 * v.1 - u.1 * v.2.2, u.1 * v.2.1 - u.2.1 * v.1)

/-- Euclidean norm on `V3`. -/
noncomputable def norm3 (u : V3) : ℝ := Real.sqrt (dot3 u u)

/-- `w / |w|³`, the Coulomb-type integrand factor. -/
noncomputable def invCube (w : V3) : V3 := (norm3 w ^ 3)⁻¹ • w

/-- Modelled from the spec: the Dipole kernel (ideal point-dipole field
law, §4.4), with the spec's convention that the field at the singular
point (observer at the source) is zero. -/
noncomputable def dipoleField (m r : V3) : V3 :=
  if r = 0 then 0
  else (4 * Real.pi)⁻¹ • ((3 * dot3 m r / norm3 r ^ 5) • r - (norm3 r ^ 3)⁻¹ • m)

/-- Modelled from the spec: the Sphere kernel — outside the sphere the
exact field of an ideal dipole of moment `magnetization × volume`, inside
the uniform internal field (§4.4, "Dipole limit consistency" in §8). -/
noncomputable def sphereField (mag : V3) (D : ℝ) (r : V3) : V3 :=
  if dot3 r r < (D / 2) ^ 2 then (2 / 3 : ℝ) • mag
  else dipoleField ((Real.pi * D ^ 3 / 6) • mag) r

/-- The geometry factor of the Biot–Savart closed form for a straight
finite segment from `a` to `b` evaluated at `r`. -/
noncomputable def lineGeom (a b r : V3) : V3 :=
  ((dot3 (b - a) (r - a) / norm3 (r - a) - dot3 (b - a) (r - b) / norm3 (r - b)) /
      dot3 (cross3 (b - a) (r - a)) (cross3 (b - a) (r - a))) •
    cross3 (b - a) (r - a)

/-- Modelled from the spec: the Line kernel (Biot–Savart closed-form
solution for a straight finite current segment, §4.4), with the spec's
guard that coincident segment endpoints yield zero. -/
noncomputable def lineField (cur : ℝ) (a b r : V3) : V3 :=
  if a = b then 0 else (cur / (4 * Real.pi)) • lineGeom a b r

/-- A point of the circular loop of diameter `D` in the z=0 plane. -/
noncomputable def loopPoint (D θ : ℝ) : V3 := (D / 2 * Real.cos θ, D / 2 * Real.sin θ, 0)

/-- The tangent (derivative of `loopPoint` in `θ`) of the circular loop. -/
noncomputable def loopTangent (D θ : ℝ) : V3 := (-(D / 2) * Real.sin θ, D / 2 * Real.cos θ, 0)

/-- The Biot–Savart integral of the circular loop per unit current. -/
noncomputable def circShape (D : ℝ) (r : V3) : V3 :=
  ∫ θ in (0:ℝ)..(2 * Real.pi), cross3 (loopTangent D θ) (invCube (r - loopPoint D θ))

/-- Modelled from the spec: the Circular kernel (field of a circular
current loop, §4.4), as the Biot–Savart line integral around the loop;
linear in the current. -/
noncomputable def circularField (cur D : ℝ) (r : V3) : V3 :=
  (cur / (4 * Real.pi)) • circShape D r

/-- One rectangular face's contribution to the surface-charge solution:
the integral of `σ (r−s)/|r−s|³` over the face parameterized by `pt`. -/
noncomputable def faceIntegral (σ : ℝ) (pt : ℝ → ℝ → V3) (u1 u2 v1 v2 : ℝ) (r : V3) : V3 :=
  ∫ u in u1..u2, ∫ v in v1..v2, σ • invCube (r - pt u v)

/-- Modelled from the spec: the Box kernel (closed-form
surface-charge-equivalent solution for a uniformly magnetized rectangular
prism, §4.4): the six faces carry charge `±Mᵢ` and the field is the
Coulomb integral over them. -/
noncomputable def boxField (mag dim r : V3) : V3 :=
  (4 * Real.pi)⁻¹ •
    (faceIntegral mag.1 (fun u v => (dim.1 / 2, u, v))
        (-(dim.2.1 / 2)) (dim.2.1 / 2) (-(dim.2.2 / 2)) (dim.2.2 / 2) r +
     faceIntegral (-mag.1) (fun u v => (-(dim.1 / 2), u, v))
        (-(dim.2.1 / 2)) (dim.2.1 / 2) (-(dim.2.2 / 2)) (dim.2.2 / 2) r +
     faceIntegral mag.2.1 (fun u v => (u, dim.2.1 / 2, v))
        (-(dim.1 / 2)) (dim.1 / 2) (-(dim.2.2 / 2)) (dim.2.2 / 2) r +
     faceIntegral (-mag.2.1) (fun u v => (u, -(dim.2.1 / 2), v))
        (-(dim.1 / 2)) (dim.1 / 2) (-(dim.2.2 / 2)) (dim.2.2 / 2) r +
     faceIntegral mag.2.2 (fun u v => (u, v, dim.2.2 / 2))
        (-(dim.1 / 2)) (dim.1 / 2) (-(dim.2.1 / 2)) (dim.2.1 / 2) r +
     faceIntegral (-mag.2.2) (fun u v => (u, v, -(dim.2.2 / 2)))
        (-(dim.1 / 2)) (dim.1 / 2) (-(dim.2.1 / 2)) (dim.2.1 / 2) r)

/-
The Collection layer (src/magpylib/_lib/obj_classes/class_Collection.py).
Source objects are modelled by an identity plus their type tag; the three
utility helpers live in magpylib._lib.utility, outside the excerpted
sources, and are modelled from the spec.
-/

/-- A source object instance: its Python object identity and the name of
its class.  Equality is object identity. -/
structure SrcObj where
  oid : Nat
  objType : String
deriving DecidableEq, Repr

/-- An argument acceptable to `Collection.__init__`/`add`: a single
source, a Collection (contributing its source list), or an arbitrary
(possibly nested) sequence of such. -/
inductive ObjInput where
  | src : SrcObj → ObjInput
  | col : List SrcObj → ObjInput
  | lst : List ObjInput → ObjInput

mutual
/-- Modelled from the spec: `format_obj_input` (magpylib._lib.utility, not
in the excerpt) flattens sources, Collections and arbitrary lists thereof
into one flat ordered source list. -/
def format_obj_input : ObjInput → List SrcObj
  | .src s => [s]
  | .col ss => ss
  | .lst xs => formatObjList xs

def formatObjList : List ObjInput → List SrcObj
  | [] => []
  | x :: xs => format_obj_input x ++ formatObjList xs
end

/-- The accumulator pass of `check_duplicates`: append each source not yet
seen. -/
def cdAux : List SrcObj → List SrcObj → List SrcObj
  | acc, [] => acc
  | acc, x :: xs => if x ∈ acc then cdAux acc xs else cdAux (acc ++ [x]) xs

/-- Modelled from the spec: `check_duplicates` (magpylib._lib.utility)
eliminates duplicate source instances, keeping first occurrences. -/
def check_duplicates (l : List SrcObj) : List SrcObj := cdAux [] l

/-- Modelled from the spec: `only_allowed_src_types`
(magpylib._lib.utility) keeps only sources of the designated source
types. -/
def only_allowed_src_types (l : List SrcObj) : List SrcObj :=
  l.filter (fun s => s.objType ∈ knownSrcTypes)

/-- The `Collection.sources` setter (lines 48-59 of class_Collection.py):
format, eliminate duplicates, restrict to allowed source types.
`Collection.__init__` assigns through this setter. -/
def sources_setter (inp : ObjInput) : List SrcObj :=
  only_allowed_src_types (check_duplicates (format_obj_input inp))

/-- `Collection.add` (lines 82-105): format the new input, append it to
the existing list, eliminate duplicates, and store the result directly in
`self._sources` (bypassing the `sources` setter). -/
def add_sources (cur : List SrcObj) (inp : ObjInput) : List SrcObj :=
  check_duplicates (cur ++ format_obj_input inp)

/-- A heap of Collection objects: address `a` holds the `_sources` list of
the Collection at that address.  Mutation of a Collection is an in-place
update of its heap cell. -/
abbrev ColHeap : Type := List (List SrcObj)

/-- `Collection.add` as a heap operation: mutates the Collection at
address `a` in place and returns (`return self`) the same address. -/
def colAdd (h : ColHeap) (a : Nat) (inp : ObjInput) : ColHeap × Nat :=
  (h.set a (add_sources (h.getD a []) inp), a)

/-- `Collection.__add__` (lines 63-65): `self.add(source); return self`,
where `add` receives the one-element varargs tuple `(source,)`. -/
def dunderAdd (h : ColHeap) (a : Nat) (s : SrcObj) : ColHeap × Nat :=
  colAdd h a (.lst [.src s])

/-- `Collection.remove` (lines 108-122): `self._sources.remove(source);
return self` — removes the first occurrence in place. -/
def colRemove (h : ColHeap) (a : Nat) (s : SrcObj) : ColHeap × Nat :=
  (h.set a ((h.getD a []).erase s), a)

/-- `Collection.__sub__` (lines 68-70): `self.remove(source); return
self`. -/
def dunderSub (h : ColHeap) (a : Nat) (s : SrcObj) : ColHeap × Nat :=
  colRemove h a s

/-
Infrastructure lemmas about the wrapper embedding.
-/

lemma getBHv_level2_error (lv : Kw → NDArr) (kw : Kw) (e : String)
    (h : normalizeKw kw = .error e) : getBHv_level2 lv kw = .error e := by
  simp [getBHv_level2, h]

lemma normalizeKw_error_build (kw : Kw) (e : String)
    (h : buildTileParams kw = .error e) : normalizeKw kw = .error e := by
  simp [normalizeKw, h]

lemma normalizeKw_mismatch (kw : Kw) (tps : List (String × NDArr × Nat))
    (hb : buildTileParams kw = .ok tps)
    (hl : 1 < (explicitLens tps).dedup.length) :
    normalizeKw kw = .error (lenMsg (explicitLens tps)) := by
  simp [normalizeKw, hb, hl]

lemma normalizeKw_ok (kw : Kw) (tps : List (String × NDArr × Nat))
    (hb : buildTileParams kw = .ok tps)
    (hl : ¬ 1 < (explicitLens tps).dedup.length) :
    normalizeKw kw =
      .ok (wrapOrientation (applyTiles kw tps (maxD1 (explicitLens tps))), squeezeOf kw) := by
  simp [normalizeKw, hb, hl]

lemma applyTiles_cons (kw : Kw) (e : String × NDArr × Nat)
    (tps : List (String × NDArr × Nat)) (n : Nat) :
    applyTiles kw (e :: tps) n =
      applyTiles (Function.update kw e.1 (some (.arr (tileVal e.2.1 e.2.2 n)))) tps n := rfl

lemma applyTiles_notmem (kw : Kw) (tps : List (String × NDArr × Nat)) (n : Nat)
    (k : String) (h : k ∉ tps.map Prod.fst) : applyTiles kw tps n k = kw k := by
  induction tps generalizing kw with
  | nil => rfl
  | cons e rest ih =>
    simp only [List.map_cons, List.mem_cons] at h
    push_neg at h
    rw [applyTiles_cons, ih _ h.2, Function.update_noteq h.1]

lemma applyTiles_mem (kw : Kw) (tps : List (String × NDArr × Nat)) (n : Nat)
    (k : String) (v : NDArr) (td : Nat)
    (hn : (tps.map Prod.fst).Nodup) (hm : (k, v, td) ∈ tps) :
    applyTiles kw tps n k = some (.arr (tileVal v td n)) := by
  induction tps generalizing kw with
  | nil => cases hm
  | cons e rest ih =>
    simp only [List.map_cons, List.nodup_cons] at hn
    rw [applyTiles_cons]
    rcases List.mem_cons.mp hm with he | hrest
    · have hk : k ∉ rest.map Prod.fst := by
        rw [← he] at hn
        exact hn.1
      rw [← he]
      rw [applyTiles_notmem _ _ _ _ hk, Function.update_same]
    · exact ih _ hn.2 hrest

lemma entry_unique (tps : List (String × NDArr × Nat))
    (k : String) (v v' : NDArr) (td td' : Nat)
    (hn : (tps.map Prod.fst).Nodup)
    (h1 : (k, v, td) ∈ tps) (h2 : (k, v', td') ∈ tps) : v = v' ∧ td = td' := by
  induction tps with
  | nil => cases h1
  | cons e rest ih =>
    simp only [List.map_cons, List.nodup_cons] at hn
    rcases List.mem_cons.mp h1 with ha | ha <;> rcases List.mem_cons.mp h2 with hb | hb
    · rw [← hb] at ha
      exact ⟨congrArg (Prod.fst ∘ Prod.snd) ha, congrArg (Prod.snd ∘ Prod.snd) ha⟩
    · exfalso
      apply hn.1
      have hk : k ∈ rest.map Prod.fst := List.mem_map.mpr ⟨(k, v', td'), hb, rfl⟩
      rw [← ha]
      exact hk
    · exfalso
      apply hn.1
      have hk : k ∈ rest.map Prod.fst := List.mem_map.mpr ⟨(k, v, td), ha, rfl⟩
      rw [← hb]
      exact hk
    · exact ih hn.2 ha hb

lemma applyTiles_congr (kw kw' : Kw) (tps : List (String × NDArr × Nat)) (n : Nat)
    (h : ∀ k, k ∉ tps.map Prod.fst → kw k = kw' k) :
    applyTiles kw tps n = applyTiles kw' tps n := by
  induction tps generalizing kw kw' with
  | nil =>
    funext k
    exact h k (by simp)
  | cons e rest ih =>
    rw [applyTiles_cons, applyTiles_cons]
    apply ih
    intro k hk
    by_cases hke : k = e.1
    · subst hke
      rw [Function.update_same, Function.update_same]
    · rw [Function.update_noteq hke, Function.update_noteq hke]
      apply h
      simp only [List.map_cons, List.mem_cons]
      push_neg
      exact ⟨hke, hk⟩

lemma applyTiles_update_comm (kw : Kw) (tps : List (String × NDArr × Nat)) (n : Nat)
    (k0 : String) (x : Option Val) (h : k0 ∉ tps.map Prod.fst) :
    applyTiles (Function.update kw k0 x) tps n =
      Function.update (applyTiles kw tps n) k0 x := by
  induction tps generalizing kw with
  | nil => rfl
  | cons e rest ih =>
    simp only [List.map_cons, List.mem_cons] at h
    push_neg at h
    rw [applyTiles_cons, applyTiles_cons, Function.update_comm h.1, ih _ h.2]

lemma wrapOrientation_update_comm (m : Kw) (k0 : String) (x : Option Val)
    (h : k0 ≠ "orientation") :
    wrapOrientation (Function.update m k0 x) = Function.update (wrapOrientation m) k0 x := by
  have hor : (Function.update m k0 x) "orientation" = m "orientation" :=
    Function.update_noteq (fun hh => h hh.symm) _ _
  rcases hv : m "orientation" with _ | v
  · simp only [wrapOrientation, hor, hv]
  · rcases v with a | q | b | s <;> simp only [wrapOrientation, hor, hv]
    exact Function.update_comm h _ _ _

lemma wrapOrientation_of_arr (m : Kw) (q : NDArr) (hm : m "orientation" = some (.arr q)) :
    wrapOrientation m = Function.update m "orientation" (some (.rot q)) := by
  simp only [wrapOrientation, hm]

lemma buildTileParams_shape (kw : Kw) (tps : List (String × NDArr × Nat))
    (h : buildTileParams kw = .ok tps) :
    ∃ ov rest, kw "observer" = some ov ∧
      tps = ("observer", coerceArr ov, 2) :: ("position", posOf kw, 2) ::
        ("orientation", quatOf kw, 2) :: rest ∧
      rest.map Prod.fst ∈ ([[], ["magnetization", "dimension"],
        ["magnetization", "diameter"], ["moment"], ["current", "diameter"],
        ["current", "segment_start", "segment_end"]] : List (List String)) := by
  unfold buildTileParams at h
  rcases hst : kw "source_type" with _ | stv <;> rw [hst] at h
  · simp at h
  rcases hov : kw "observer" with _ | ov <;> rw [hov] at h
  · simp at h
  refine ⟨ov, ?_⟩
  dsimp only at h
  unfold mkBranch at h
  split_ifs at h
  · -- Box
    rcases h1 : kw "magnetization" with _ | mv <;> rw [h1] at h
    · simp at h
    rcases h2 : kw "dimension" with _ | dv <;> rw [h2] at h
    · simp at h
    dsimp only at h
    simp only [List.cons_append, List.nil_append, Except.ok.injEq] at h
    exact ⟨_, rfl, h.symm, by simp⟩
  · -- Cylinder
    rcases h1 : kw "magnetization" with _ | mv <;> rw [h1] at h
    · simp at h
    rcases h2 : kw "dimension" with _ | dv <;> rw [h2] at h
    · simp at h
    dsimp only at h
    simp only [List.cons_append, List.nil_append, Except.ok.injEq] at h
    exact ⟨_, rfl, h.symm, by simp⟩
  · -- Sphere
    rcases h1 : kw "magnetization" with _ | mv <;> rw [h1] at h
    · simp at h
    rcases h2 : kw "diameter" with _ | dv <;> rw [h2] at h
    · simp at h
    dsimp only at h
    simp only [List.cons_append, List.nil_append, Except.ok.injEq] at h
    exact ⟨_, rfl, h.symm, by simp⟩
  · -- Dipole
    rcases h1 : kw "moment" with _ | mv <;> rw [h1] at h
    · simp at h
    dsimp only at h
    simp only [List.cons_append, List.nil_append, Except.ok.injEq] at h
    exact ⟨_, rfl, h.symm, by simp⟩
  · -- Circular
    rcases h1 : kw "current" with _ | cv <;> rw [h1] at h
    · simp at h
    rcases h2 : kw "diameter" with _ | dv <;> rw [h2] at h
    · simp at h
    dsimp only at h
    simp only [List.cons_append, List.nil_append, Except.ok.injEq] at h
    exact ⟨_, rfl, h.symm, by simp⟩
  · -- Line
    rcases h1 : kw "current" with _ | cv <;> rw [h1] at h
    · simp at h
    rcases h2 : kw "segment_start" with _ | sv <;> rw [h2] at h
    · simp at h
    rcases h3 : kw "segment_end" with _ | ev <;> rw [h3] at h
    · simp at h
    dsimp only at h
    simp only [List.cons_append, List.nil_append, Except.ok.injEq] at h
    exact ⟨_, rfl, h.symm, by simp⟩
  · -- unknown source type
    simp only [Except.ok.injEq] at h
    exact ⟨[], rfl, h.symm, by simp⟩

lemma buildTileParams_props (kw : Kw) (tps : List (String × NDArr × Nat))
    (h : buildTileParams kw = .ok tps) :
    (tps.map Prod.fst).Nodup ∧ "squeeze" ∉ tps.map Prod.fst ∧
    ("position", posOf kw, 2) ∈ tps ∧ ("orientation", quatOf kw, 2) ∈ tps := by
  obtain ⟨ov, rest, hov, htps, hkeys⟩ := buildTileParams_shape kw tps h
  subst htps
  simp only [List.mem_cons, List.not_mem_nil, or_false] at hkeys
  refine ⟨?_, ?_, by simp, by simp⟩ <;>
    (rcases hkeys with hk | hk | hk | hk | hk | hk <;>
      simp only [List.map_cons, hk] <;> decide)

lemma normalized_lookup (kw : Kw) (tps : List (String × NDArr × Nat)) (n : Nat)
    (k : String) (v : NDArr) (td : Nat)
    (hb : buildTileParams kw = .ok tps)
    (hm : (k, v, td) ∈ tps) :
    wrapOrientation (applyTiles kw tps n) k = some (wrapKey k (tileVal v td n)) := by
  obtain ⟨hnod, _, _, hor⟩ := buildTileParams_props kw tps hb
  have h1 : applyTiles kw tps n "orientation" = some (.arr (tileVal (quatOf kw) 2 n)) :=
    applyTiles_mem _ _ _ _ _ _ hnod hor
  rw [wrapOrientation_of_arr _ _ h1]
  by_cases hk : k = "orientation"
  · subst hk
    obtain ⟨hv, htd⟩ := entry_unique tps _ _ _ _ _ hnod hm hor
    subst hv htd
    rw [Function.update_same]
    simp [wrapKey]
  · rw [Function.update_noteq hk, applyTiles_mem _ _ _ _ _ _ hnod hm]
    simp [wrapKey, hk]

lemma foldl_max_all (a : Nat) (l : List Nat) (h : ∀ y ∈ l, y = a) :
    l.foldl Nat.max a = a := by
  induction l with
  | nil => rfl
  | cons b bs ih =>
    have hb : b = a := h b (by simp)
    subst hb
    simp only [List.foldl_cons, Nat.max_self]
    exact ih (fun y hy => h y (by simp [hy]))

lemma mem_eq_maxD1 (l : List Nat) (hle : l.dedup.length ≤ 1) (x : Nat) (hx : x ∈ l) :
    x = maxD1 l := by
  have hall : ∀ y ∈ l, y = x := by
    intro y hy
    have hyD := List.mem_dedup.mpr hy
    have hxD := List.mem_dedup.mpr hx
    rcases hd : l.dedup with _ | ⟨a, rest⟩
    · rw [hd] at hxD
      cases hxD
    · rw [hd] at hyD hxD hle
      simp only [List.length_cons] at hle
      have hrest : rest = [] := List.length_eq_zero.mp (by omega)
      subst hrest
      simp only [List.mem_singleton] at hyD hxD
      rw [hyD, hxD]
  rcases hl : l with _ | ⟨a, rest⟩
  · rw [hl] at hx
    cases hx
  · rw [hl] at hall
    have ha : a = x := hall a (by simp)
    show x = rest.foldl Nat.max a
    rw [foldl_max_all a rest (fun y hy => by rw [hall y (by simp [hy]), ← ha])]
    exact ha.symm

lemma len_mem_explicitLens (tps : List (String × NDArr × Nat)) (k : String)
    (v : NDArr) (td : Nat) (hm : (k, v, td) ∈ tps) (hd : v.ndim = td) :
    v.len ∈ explicitLens tps := by
  unfold explicitLens
  exact List.mem_filterMap.mpr ⟨(k, v, td), hm, by simp [hd]⟩

lemma explicitLens_filter (tps : List (String × NDArr × Nat)) :
    explicitLens (tps.filter (fun e => decide (e.2.1.ndim ≤ e.2.2))) = explicitLens tps := by
  induction tps with
  | nil => rfl
  | cons e rest ih =>
    by_cases he : e.2.1.ndim ≤ e.2.2
    · rw [List.filter_cons_of_pos (by simpa using he)]
      unfold explicitLens at *
      simp only [List.filterMap_cons, ih]
    · rw [List.filter_cons_of_neg (by simpa using he)]
      unfold explicitLens at *
      have hne : ¬ e.2.1.ndim = e.2.2 := fun hh => he (le_of_eq hh)
      simp only [List.filterMap_cons, hne, if_false, ih]

lemma asRow_eq_self (v : NDArr) (h : v.ndim = 1) : v.asRow = v := by
  cases v with
  | scalar x => simp [NDArr.ndim] at h
  | arr xs => rfl

lemma tileVal_replicate (v : NDArr) (td n : Nat) (h : v.ndim + 1 = td) :
    tileVal v td n = .arr (List.replicate n v) := by
  unfold tileVal
  rw [if_pos (by omega)]
  by_cases h2 : td = 2
  · rw [if_pos h2]
    unfold tile2
    rw [asRow_eq_self v (by omega)]
  · rw [if_neg h2]
    rfl

lemma tileVal_self (v : NDArr) (td n : Nat) (h : ¬ v.ndim < td) :
    tileVal v td n = v := by
  unfold tileVal
  rw [if_neg h]

/-
Concrete inputs used by the witnesses.
-/

/-- Builds a kwargs dictionary from an association list. -/
def mkKw (l : List (String × Val)) : Kw :=
  fun k => (l.find? (fun e => e.1 = k)).map Prod.snd

/-- A 3-entry row array. -/
def row3 (a b c : ℚ) : NDArr := .arr [.scalar a, .scalar b, .scalar c]

/-- A Dipole call with an explicit observer batch of length 3 and an
explicit position batch of length 5 (conflicting lengths). -/
def kwC1 : Kw := mkKw [("source_type", .str "Dipole"),
  ("observer", .arr (.arr [row3 1 0 0, row3 0 1 0, row3 0 0 1])),
  ("position", .arr (.arr [row3 0 0 0, row3 1 1 1, row3 2 2 2, row3 3 3 3, row3 4 4 4])),
  ("moment", .arr (row3 1 2 3))]

/-- The tile-params dictionary of `kwC1`. -/
def tpsC1 : List (String × NDArr × Nat) :=
  [("observer", .arr [row3 1 0 0, row3 0 1 0, row3 0 0 1], 2),
   ("position", .arr [row3 0 0 0, row3 1 1 1, row3 2 2 2, row3 3 3 3, row3 4 4 4], 2),
   ("orientation", defaultQuat, 2),
   ("moment", row3 1 2 3, 2)]

/-- A Dipole call with an explicit observer batch of length 2 and a
single-instance moment. -/
def kwC2 : Kw := mkKw [("source_type", .str "Dipole"),
  ("observer", .arr (.arr [row3 1 0 0, row3 0 1 0])),
  ("moment", .arr (row3 1 2 3))]

/-- The tile-params dictionary of `kwC2`. -/
def tpsC2 : List (String × NDArr × Nat) :=
  [("observer", .arr [row3 1 0 0, row3 0 1 0], 2),
   ("position", defaultPos, 2),
   ("orientation", defaultQuat, 2),
   ("moment", row3 1 2 3, 2)]

/-- A Dipole call whose observer has shape (2,2,3): rank 3, one above the
declared tile rank 2. -/
def kwC9 : Kw := mkKw [("source_type", .str "Dipole"),
  ("observer", .arr (.arr [.arr [row3 1 0 0, row3 0 1 0], .arr [row3 1 1 0, row3 0 0 1]])),
  ("moment", .arr (.arr [row3 1 2 3]))]

/-- The tile-params dictionary of `kwC9`. -/
def tpsC9 : List (String × NDArr × Nat) :=
  [("observer", .arr [.arr [row3 1 0 0, row3 0 1 0], .arr [row3 1 1 0, row3 0 0 1]], 2),
   ("position", defaultPos, 2),
   ("orientation", defaultQuat, 2),
   ("moment", .arr [row3 1 2 3], 2)]

/-
The claims.
-/

/-- C1: if the explicit-batch inputs of a `getBHv_level2` call (the
tile-params entries whose actual rank equals their declared tile rank)
have more than one distinct length, the call raises a
`MagpylibBadUserInput` whose message names the set of conflicting
lengths, and it does so uniformly in the `getBH_level1` stage — i.e.
before `getBH_level1` is invoked, so no field computation happens. -/
theorem C1_length_mismatch (kw : Kw) (tps : List (String × NDArr × Nat))
    (hb : buildTileParams kw = .ok tps)
    (hl : 1 < (explicitLens tps).dedup.length) :
    ∀ level1 : Kw → NDArr,
      getBHv_level2 level1 kw = .error (lenMsg (explicitLens tps)) := by
  intro lv
  exact getBHv_level2_error _ _ _ (normalizeKw_mismatch _ _ hb hl)

/-- Witness for C1: observer of length 3 against position of length 5. -/
theorem C1_length_mismatch_witness :
    buildTileParams kwC1 = .ok tpsC1 ∧ 1 < (explicitLens tpsC1).dedup.length ∧
    getBHv_level2 (fun _ => .scalar 0) kwC1 = .error (lenMsg (explicitLens tpsC1)) :=
  ⟨rfl, by decide, C1_length_mismatch kwC1 tpsC1 rfl (by decide) (fun _ => .scalar 0)⟩

/-- C2: when the explicit-batch inputs share at most one distinct length,
normalization succeeds with batch length `N = maxD1 lens` (`N = 1` when
there is no explicit batch); every tile-params input one rank below its
declared rank is stored back as `N` identical copies of itself (an array
with exactly `N` leading entries), and every input already at declared
rank is passed through unchanged and has exactly `N` leading entries. -/
theorem C2_broadcasting (kw : Kw) (tps : List (String × NDArr × Nat))
    (hb : buildTileParams kw = .ok tps)
    (hl : ¬ 1 < (explicitLens tps).dedup.length) :
    (explicitLens tps = [] → maxD1 (explicitLens tps) = 1) ∧
    ∃ m, normalizeKw kw = .ok (m, squeezeOf kw) ∧
      ∀ k v td, (k, v, td) ∈ tps →
        (v.ndim + 1 = td →
          m k = some (wrapKey k (.arr (List.replicate (maxD1 (explicitLens tps)) v))) ∧
          (NDArr.arr (List.replicate (maxD1 (explicitLens tps)) v)).len
            = maxD1 (explicitLens tps)) ∧
        (v.ndim = td →
          m k = some (wrapKey k v) ∧ v.len = maxD1 (explicitLens tps)) := by
  refine ⟨fun he => by rw [he]; rfl, _, normalizeKw_ok kw tps hb hl, ?_⟩
  intro k v td hm
  constructor
  · intro hnd
    refine ⟨?_, by simp [NDArr.len]⟩
    have hlook := normalized_lookup kw tps (maxD1 (explicitLens tps)) k v td hb hm
    rw [hlook, tileVal_replicate v td _ hnd]
  · intro hd
    refine ⟨?_, mem_eq_maxD1 _ (by omega) _ (len_mem_explicitLens tps k v td hm hd)⟩
    have hlook := normalized_lookup kw tps (maxD1 (explicitLens tps)) k v td hb hm
    rw [hlook, tileVal_self v td _ (by omega)]

/-- Witness for C2: a Dipole call with an explicit observer batch of
length 2 and a single-instance moment. -/
theorem C2_broadcasting_witness :
    (explicitLens tpsC2 = [] → maxD1 (explicitLens tpsC2) = 1) ∧
    ∃ m, normalizeKw kwC2 = .ok (m, squeezeOf kwC2) ∧
      ∀ k v td, (k, v, td) ∈ tpsC2 →
        (v.ndim + 1 = td →
          m k = some (wrapKey k (.arr (List.replicate (maxD1 (explicitLens tpsC2)) v))) ∧
          (NDArr.arr (List.replicate (maxD1 (explicitLens tpsC2)) v)).len
            = maxD1 (explicitLens tpsC2)) ∧
        (v.ndim = td →
          m k = some (wrapKey k v) ∧ v.len = maxD1 (explicitLens tpsC2)) :=
  C2_broadcasting kwC2 tpsC2 rfl (by decide)

/-- C9: a tile-params input whose actual rank strictly exceeds its
declared tile rank contributes nothing to batch-length inference
(dropping all such entries leaves the inferred length list unchanged),
triggers no shape error, and is passed through to `getBH_level1`
unchanged. -/
theorem C9_overrank_passthrough (kw : Kw) (tps : List (String × NDArr × Nat))
    (k : String) (v : NDArr) (td : Nat)
    (hb : buildTileParams kw = .ok tps)
    (hm : (k, v, td) ∈ tps)
    (hrk : td < v.ndim)
    (hk : k ≠ "orientation")
    (hl : ¬ 1 < (explicitLens tps).dedup.length) :
    explicitLens (tps.filter (fun e => decide (e.2.1.ndim ≤ e.2.2))) = explicitLens tps ∧
    ∃ m, normalizeKw kw = .ok (m, squeezeOf kw) ∧ m k = some (.arr v) := by
  refine ⟨explicitLens_filter tps, _, normalizeKw_ok kw tps hb hl, ?_⟩
  have hlook := normalized_lookup kw tps (maxD1 (explicitLens tps)) k v td hb hm
  rw [hlook, tileVal_self v td _ (by omega)]
  simp [wrapKey, hk]

/-- Witness for C9: an observer of shape (2,2,3) with declared tile rank
2 is passed through unchanged while the explicit moment batch of length 1
fixes N. -/
theorem C9_overrank_passthrough_witness :
    explicitLens (tpsC9.filter (fun e => decide (e.2.1.ndim ≤ e.2.2))) = explicitLens tpsC9 ∧
    ∃ m, normalizeKw kwC9 = .ok (m, squeezeOf kwC9) ∧
      m "observer" = some (.arr (.arr [.arr [row3 1 0 0, row3 0 1 0],
        .arr [row3 1 1 0, row3 0 0 1]])) :=
  C9_overrank_passthrough kwC9 tpsC9 "observer"
    (.arr [.arr [row3 1 0 0, row3 0 1 0], .arr [row3 1 1 0, row3 0 0 1]]) 2
    rfl (by exact List.mem_cons_self _ _) (by decide) (by decide) (by decide)

lemma buildTileParams_congr (kw kw' : Kw)
    (h1 : kw "source_type" = kw' "source_type")
    (h2 : kw "observer" = kw' "observer")
    (h3 : posOf kw = posOf kw')
    (h4 : quatOf kw = quatOf kw')
    (hma : kw "magnetization" = kw' "magnetization")
    (hdi : kw "dimension" = kw' "dimension")
    (hdia : kw "diameter" = kw' "diameter")
    (hmo : kw "moment" = kw' "moment")
    (hcu : kw "current" = kw' "current")
    (hss : kw "segment_start" = kw' "segment_start")
    (hse : kw "segment_end" = kw' "segment_end") :
    buildTileParams kw = buildTileParams kw' := by
  unfold buildTileParams mkBranch
  rw [h1, h2, h3, h4, hma, hdi, hdia, hmo, hcu, hss, hse]

/-- Updating a kwargs key that is among the tile-params keys (and is not
`squeeze`) without changing the captured tile-params leaves the whole
call result unchanged: the tiling loop overwrites that key anyway. -/
lemma getBHv_update_key_eq (kw : Kw) (tps : List (String × NDArr × Nat))
    (hb : buildTileParams kw = .ok tps) (k0 : String) (x : Option Val)
    (hmem : k0 ∈ tps.map Prod.fst)
    (hbt : buildTileParams (Function.update kw k0 x) = buildTileParams kw)
    (hsq : k0 ≠ "squeeze") :
    ∀ lv, getBHv_level2 lv kw = getBHv_level2 lv (Function.update kw k0 x) := by
  have hagree : ∀ k, k ∉ tps.map Prod.fst → Function.update kw k0 x k = kw k := by
    intro k hk
    exact Function.update_noteq (fun hh => hk (by rw [hh]; exact hmem)) _ _
  have hsqeq : squeezeOf (Function.update kw k0 x) = squeezeOf kw := by
    unfold squeezeOf
    rw [Function.update_noteq (Ne.symm hsq)]
  have hnorm : normalizeKw (Function.update kw k0 x) = normalizeKw kw := by
    unfold normalizeKw
    rw [hbt, hb]
    dsimp only
    rw [applyTiles_congr (Function.update kw k0 x) kw tps _ hagree, hsqeq]
  intro lv
  unfold getBHv_level2
  rw [hnorm]

/-- A Dipole call omitting position and orientation. -/
def kwC6 : Kw := mkKw [("source_type", .str "Dipole"),
  ("observer", .arr (row3 1 0 0)), ("moment", .arr (row3 0 0 1))]

/-- The tile-params dictionary of `kwC6`. -/
def tpsC6 : List (String × NDArr × Nat) :=
  [("observer", row3 1 0 0, 2), ("position", defaultPos, 2),
   ("orientation", defaultQuat, 2), ("moment", row3 0 0 1, 2)]

/-- C6: independently of each other, when `position` is absent its
tile-params entry is the origin `(0,0,0)`, and when `orientation` is
absent its entry is the identity quaternion `(0,0,0,1)` (so after tiling
every batch entry carries the default); in each case supplying the
omitted key explicitly with exactly its default value yields the
identical call result for every kernel stage — the default replaces the
missing key and nothing else changes. -/
theorem C6_default_pose (kw : Kw) (tps : List (String × NDArr × Nat))
    (hb : buildTileParams kw = .ok tps) :
    (kw "position" = none →
      ("position", defaultPos, 2) ∈ tps ∧
      ∀ lv, getBHv_level2 lv kw =
        getBHv_level2 lv (Function.update kw "position" (some (.arr defaultPos)))) ∧
    (kw "orientation" = none →
      ("orientation", defaultQuat, 2) ∈ tps ∧
      ∀ lv, getBHv_level2 lv kw =
        getBHv_level2 lv (Function.update kw "orientation" (some (.rot defaultQuat)))) := by
  obtain ⟨hnod, hsqk, hposm, horim⟩ := buildTileParams_props kw tps hb
  constructor
  · intro hpos
    have hpv : posOf kw = defaultPos := by
      unfold posOf
      rw [hpos]
    rw [hpv] at hposm
    refine ⟨hposm, ?_⟩
    have hp1 : posOf (Function.update kw "position" (some (.arr defaultPos)))
        = defaultPos := by
      unfold posOf
      rw [Function.update_same]
      rfl
    have hlook : ∀ k : String, k ≠ "position" →
        Function.update kw "position" (some (.arr defaultPos)) k = kw k :=
      fun k hk => Function.update_noteq hk _ _
    have hbt : buildTileParams (Function.update kw "position" (some (.arr defaultPos)))
        = buildTileParams kw := by
      refine buildTileParams_congr _ kw
        (hlook _ (by decide)) (hlook _ (by decide)) ?_ ?_
        (hlook _ (by decide)) (hlook _ (by decide)) (hlook _ (by decide))
        (hlook _ (by decide)) (hlook _ (by decide)) (hlook _ (by decide))
        (hlook _ (by decide))
      · rw [hp1, hpv]
      · unfold quatOf
        rw [hlook _ (by decide)]
    exact getBHv_update_key_eq kw tps hb "position" _
      (List.mem_map.mpr ⟨_, hposm, rfl⟩) hbt (by decide)
  · intro hori
    have hqv : quatOf kw = defaultQuat := by
      unfold quatOf
      rw [hori]
    rw [hqv] at horim
    refine ⟨horim, ?_⟩
    have hq1 : quatOf (Function.update kw "orientation" (some (.rot defaultQuat)))
        = defaultQuat := by
      unfold quatOf
      rw [Function.update_same]
    have hlook : ∀ k : String, k ≠ "orientation" →
        Function.update kw "orientation" (some (.rot defaultQuat)) k = kw k :=
      fun k hk => Function.update_noteq hk _ _
    have hbt : buildTileParams (Function.update kw "orientation" (some (.rot defaultQuat)))
        = buildTileParams kw := by
      refine buildTileParams_congr _ kw
        (hlook _ (by decide)) (hlook _ (by decide)) ?_ ?_
        (hlook _ (by decide)) (hlook _ (by decide)) (hlook _ (by decide))
        (hlook _ (by decide)) (hlook _ (by decide)) (hlook _ (by decide))
        (hlook _ (by decide))
      · unfold posOf
        rw [hlook _ (by decide)]
      · rw [hq1, hqv]
    exact getBHv_update_key_eq kw tps hb "orientation" _
      (List.mem_map.mpr ⟨_, horim, rfl⟩) hbt (by decide)

/-- Witness for C6: the Dipole call `kwC6` omits both optional keys, and
each default is exercised by its own conjunct, independently of the
other. -/
theorem C6_default_pose_witness :
    (("position", defaultPos, 2) ∈ tpsC6 ∧
      ∀ lv, getBHv_level2 lv kwC6 =
        getBHv_level2 lv (Function.update kwC6 "position" (some (.arr defaultPos)))) ∧
    (("orientation", defaultQuat, 2) ∈ tpsC6 ∧
      ∀ lv, getBHv_level2 lv kwC6 =
        getBHv_level2 lv (Function.update kwC6 "orientation" (some (.rot defaultQuat)))) :=
  ⟨(C6_default_pose kwC6 tpsC6 rfl).1 rfl, (C6_default_pose kwC6 tpsC6 rfl).2 rfl⟩

lemma buildTileParams_update_squeeze (kw : Kw) (x : Option Val) :
    buildTileParams (Function.update kw "squeeze" x) = buildTileParams kw := by
  have hlook : ∀ k : String, k ≠ "squeeze" → Function.update kw "squeeze" x k = kw k :=
    fun k hk => Function.update_noteq hk _ _
  refine buildTileParams_congr _ _
    (hlook _ (by decide)) (hlook _ (by decide)) ?_ ?_
    (hlook _ (by decide)) (hlook _ (by decide)) (hlook _ (by decide))
    (hlook _ (by decide)) (hlook _ (by decide)) (hlook _ (by decide))
    (hlook _ (by decide))
  · unfold posOf
    rw [hlook _ (by decide)]
  · unfold quatOf
    rw [hlook _ (by decide)]

/-- A single-instance Dipole call (N = 1) with no squeeze key. -/
def kwC5 : Kw := mkKw [("source_type", .str "Dipole"),
  ("observer", .arr (row3 2 0 0)), ("moment", .arr (row3 0 0 1))]

/-- The same single-instance Dipole call with `squeeze=True` passed
explicitly. -/
def kwC5T : Kw := mkKw [("source_type", .str "Dipole"),
  ("observer", .arr (row3 2 0 0)), ("moment", .arr (row3 0 0 1)),
  ("squeeze", .bool true)]

/-- The tile-params dictionary of `kwC5` (and of `kwC5T`). -/
def tpsC5 : List (String × NDArr × Nat) :=
  [("observer", row3 2 0 0, 2), ("position", defaultPos, 2),
   ("orientation", defaultQuat, 2), ("moment", row3 0 0 1, 2)]

/-- A concrete kernel stage for the C5 witness: reads the observer entry
(so it genuinely depends on the normalized kwargs) and returns a (1,3)
batch. -/
def lvC5 : Kw → NDArr :=
  fun m => match m "observer" with
  | some (.arr (.arr (x :: _))) => .arr [x]
  | _ => .scalar 0

/-- C5: for a call whose `squeeze` key is absent (the flag defaults to
true) or is explicitly `squeeze=True`, and whose kernel result is a (1,3)
batch, the call returns the bare 3-vector; the identical call with
`squeeze=False` returns the (1,3) batch with identical numeric content;
and squeezing that batch removes exactly the length-1 axis, recovering
the 3-vector.  The kernel stage is assumed insensitive to the `squeeze`
key (the spec carries `squeeze` past the kernel untouched). -/
theorem C5_squeeze (kw : Kw) (tps : List (String × NDArr × Nat))
    (lv : Kw → NDArr) (x y z : ℚ)
    (hb : buildTileParams kw = .ok tps)
    (hl : ¬ 1 < (explicitLens tps).dedup.length)
    (hsq : kw "squeeze" = none ∨ kw "squeeze" = some (.bool true))
    (hIg : ∀ m : Kw, lv (Function.update m "squeeze" (some (.bool false))) = lv m)
    (hshape : lv (wrapOrientation (applyTiles kw tps (maxD1 (explicitLens tps)))) =
      .arr [.arr [.scalar x, .scalar y, .scalar z]]) :
    getBHv_level2 lv kw = .ok (.arr [.scalar x, .scalar y, .scalar z]) ∧
    getBHv_level2 lv (Function.update kw "squeeze" (some (.bool false))) =
      .ok (.arr [.arr [.scalar x, .scalar y, .scalar z]]) ∧
    npSqueeze (.arr [.arr [.scalar x, .scalar y, .scalar z]]) =
      .arr [.scalar x, .scalar y, .scalar z] := by
  obtain ⟨hnod, hsqk, hposm, horim⟩ := buildTileParams_props kw tps hb
  have hsqT : squeezeOf kw = true := by
    rcases hsq with h | h <;> unfold squeezeOf <;> rw [h]
  refine ⟨?_, ?_, rfl⟩
  · unfold getBHv_level2
    rw [normalizeKw_ok kw tps hb hl]
    dsimp only
    rw [hsqT, hshape]
    rfl
  · set kwF := Function.update kw "squeeze" (some (.bool false)) with hkwF
    have hbF : buildTileParams kwF = .ok tps := by
      rw [hkwF, buildTileParams_update_squeeze, hb]
    have hsqF : squeezeOf kwF = false := by
      unfold squeezeOf
      rw [hkwF]
      rw [Function.update_same]
    unfold getBHv_level2
    rw [normalizeKw_ok kwF tps hbF hl]
    dsimp only
    rw [hsqF]
    have hmap : wrapOrientation (applyTiles kwF tps (maxD1 (explicitLens tps))) =
        Function.update (wrapOrientation (applyTiles kw tps (maxD1 (explicitLens tps))))
          "squeeze" (some (.bool false)) := by
      rw [hkwF, applyTiles_update_comm kw tps _ _ _ hsqk,
        wrapOrientation_update_comm _ _ _ (by decide)]
    rw [hmap, hIg, hshape]
    simp

/-- Witness for C5: the single-instance Dipole call under the
observer-reading kernel stage `lvC5`, once with `squeeze` absent (`kwC5`)
and once with `squeeze=True` explicit (`kwC5T`). -/
theorem C5_squeeze_witness :
    (getBHv_level2 lvC5 kwC5 = .ok (.arr [.scalar 2, .scalar 0, .scalar 0]) ∧
     getBHv_level2 lvC5 (Function.update kwC5 "squeeze" (some (.bool false))) =
       .ok (.arr [.arr [.scalar 2, .scalar 0, .scalar 0]]) ∧
     npSqueeze (.arr [.arr [.scalar 2, .scalar 0, .scalar 0]]) =
       .arr [.scalar 2, .scalar 0, .scalar 0]) ∧
    (getBHv_level2 lvC5 kwC5T = .ok (.arr [.scalar 2, .scalar 0, .scalar 0]) ∧
     getBHv_level2 lvC5 (Function.update kwC5T "squeeze" (some (.bool false))) =
       .ok (.arr [.arr [.scalar 2, .scalar 0, .scalar 0]]) ∧
     npSqueeze (.arr [.arr [.scalar 2, .scalar 0, .scalar 0]]) =
       .arr [.scalar 2, .scalar 0, .scalar 0]) :=
  ⟨C5_squeeze kwC5 tpsC5 lvC5 2 0 0 rfl (by decide) (Or.inl rfl)
      (fun m => by
        unfold lvC5
        rw [Function.update_noteq (by decide)])
      rfl,
   C5_squeeze kwC5T tpsC5 lvC5 2 0 0 rfl (by decide) (Or.inr rfl)
      (fun m => by
        unfold lvC5
        rw [Function.update_noteq (by decide)])
      rfl⟩

/-- The always-tiled general part of the tile-params dictionary. -/
def baseTps (kw : Kw) (ov : Val) : List (String × NDArr × Nat) :=
  [("observer", coerceArr ov, 2), ("position", posOf kw, 2), ("orientation", quatOf kw, 2)]

/-- A call whose source_type matches none of the six recognized tags. -/
def kwC3 : Kw := mkKw [("source_type", .str "UnknownWidget"),
  ("observer", .arr (row3 1 0 0))]

/-- Counterexample to C3: for `source_type = "UnknownWidget"` the
normalization stage of `getBHv_level2` raises no error at all — the call
runs to completion and returns the kernel stage's output, so the claimed
bad-input failure before `getBH_level1` does not happen. -/
theorem C3_counterexample :
    (∃ p, normalizeKw kwC3 = .ok p) ∧
    getBHv_level2 (fun _ => .arr [.arr [.scalar 9, .scalar 9, .scalar 9]]) kwC3 =
      .ok (.arr [.scalar 9, .scalar 9, .scalar 9]) :=
  ⟨⟨_, rfl⟩, rfl⟩

/-- C3 (amended): a `source_type` value outside the six recognized tags
is not rejected by `getBHv_level2`: the if/elif chain of lines 57-91 has
no else branch, so only the three general inputs are collected and tiled,
no error is raised at the normalization boundary, and `getBH_level1` is
invoked on the normalized kwargs (any bad-input failure for the unknown
tag could only arise inside `getBH_level1`). -/
theorem C3_unknown_type_not_rejected (kw : Kw) (stv ov : Val)
    (hst : kw "source_type" = some stv)
    (hunk : tagOf stv ∉ knownSrcTypes)
    (hov : kw "observer" = some ov) :
    buildTileParams kw = .ok (baseTps kw ov) ∧
    (¬ 1 < (explicitLens (baseTps kw ov)).dedup.length →
      ∀ lv, getBHv_level2 lv kw =
        .ok (if squeezeOf kw
          then npSqueeze (lv (wrapOrientation (applyTiles kw (baseTps kw ov)
            (maxD1 (explicitLens (baseTps kw ov))))))
          else lv (wrapOrientation (applyTiles kw (baseTps kw ov)
            (maxD1 (explicitLens (baseTps kw ov))))))) := by
  have hne : ∀ s ∈ knownSrcTypes, tagOf stv ≠ s :=
    fun s hs hh => hunk (hh ▸ hs)
  have hbt : buildTileParams kw = .ok (baseTps kw ov) := by
    unfold buildTileParams
    rw [hst, hov]
    dsimp only
    unfold mkBranch
    rw [if_neg (hne "Box" (by decide)), if_neg (hne "Cylinder" (by decide)),
      if_neg (hne "Sphere" (by decide)), if_neg (hne "Dipole" (by decide)),
      if_neg (hne "Circular" (by decide)), if_neg (hne "Line" (by decide))]
    rfl
  refine ⟨hbt, fun hlen lv => ?_⟩
  unfold getBHv_level2
  rw [normalizeKw_ok kw _ hbt hlen]

/-- Witness for the amended C3 at the concrete input `kwC3`. -/
theorem C3_unknown_type_not_rejected_witness :
    buildTileParams kwC3 = .ok (baseTps kwC3 (.arr (row3 1 0 0))) ∧
    (¬ 1 < (explicitLens (baseTps kwC3 (.arr (row3 1 0 0)))).dedup.length →
      ∀ lv, getBHv_level2 lv kwC3 =
        .ok (if squeezeOf kwC3
          then npSqueeze (lv (wrapOrientation (applyTiles kwC3
            (baseTps kwC3 (.arr (row3 1 0 0)))
            (maxD1 (explicitLens (baseTps kwC3 (.arr (row3 1 0 0))))))))
          else lv (wrapOrientation (applyTiles kwC3
            (baseTps kwC3 (.arr (row3 1 0 0)))
            (maxD1 (explicitLens (baseTps kwC3 (.arr (row3 1 0 0))))))))) :=
  C3_unknown_type_not_rejected kwC3 (.str "UnknownWidget") (.arr (row3 1 0 0))
    rfl (by decide) rfl

/-- C4: a call that omits a mandatory key of its source type fails with a
`MagpylibBadUserInput` naming a missing mandatory key (the first one in
the source's access order), and the kernel stage is never invoked: the
error is returned for every possible `getBH_level1`. -/
theorem C4_missing_key (kw : Kw) (st k : String)
    (hst : kw "source_type" = some (.str st))
    (hk : k ∈ mandatoryKeys st)
    (hmiss : kw k = none) :
    ∃ k0, k0 ∈ mandatoryKeys st ∧ kw k0 = none ∧
      ∀ lv, getBHv_level2 lv kw = .error (missingMsg k0) := by
  have herr : ∀ k0 : String, buildTileParams kw = .error (missingMsg k0) →
      ∀ lv, getBHv_level2 lv kw = .error (missingMsg k0) :=
    fun k0 hbe lv => getBHv_level2_error _ _ _ (normalizeKw_error_build _ _ hbe)
  rcases hov : kw "observer" with _ | ov
  · exact ⟨"observer", by simp [mandatoryKeys], hov,
      herr _ (by unfold buildTileParams; rw [hst, hov])⟩
  by_cases hB : st = "Box"
  · subst hB
    rcases hm : kw "magnetization" with _ | mv
    · exact ⟨"magnetization", by decide, hm,
        herr _ (by unfold buildTileParams mkBranch; rw [hst, hov, hm]; rfl)⟩
    rcases hd : kw "dimension" with _ | dv
    · exact ⟨"dimension", by decide, hd,
        herr _ (by unfold buildTileParams mkBranch; rw [hst, hov, hm, hd]; rfl)⟩
    exfalso
    have hk2 := hk
    simp only [mandatoryKeys] at hk2
    simp at hk2
    rcases hk2 with rfl | rfl | rfl | rfl <;> simp_all
  by_cases hC : st = "Cylinder"
  · subst hC
    rcases hm : kw "magnetization" with _ | mv
    · exact ⟨"magnetization", by decide, hm,
        herr _ (by unfold buildTileParams mkBranch; rw [hst, hov, hm]; rfl)⟩
    rcases hd : kw "dimension" with _ | dv
    · exact ⟨"dimension", by decide, hd,
        herr _ (by unfold buildTileParams mkBranch; rw [hst, hov, hm, hd]; rfl)⟩
    exfalso
    have hk2 := hk
    simp only [mandatoryKeys] at hk2
    simp at hk2
    rcases hk2 with rfl | rfl | rfl | rfl <;> simp_all
  by_cases hS : st = "Sphere"
  · subst hS
    rcases hm : kw "magnetization" with _ | mv
    · exact ⟨"magnetization", by decide, hm,
        herr _ (by unfold buildTileParams mkBranch; rw [hst, hov, hm]; rfl)⟩
    rcases hd : kw "diameter" with _ | dv
    · exact ⟨"diameter", by decide, hd,
        herr _ (by unfold buildTileParams mkBranch; rw [hst, hov, hm, hd]; rfl)⟩
    exfalso
    have hk2 := hk
    simp only [mandatoryKeys] at hk2
    simp at hk2
    rcases hk2 with rfl | rfl | rfl | rfl <;> simp_all
  by_cases hD : st = "Dipole"
  · subst hD
    rcases hm : kw "moment" with _ | mv
    · exact ⟨"moment", by decide, hm,
        herr _ (by unfold buildTileParams mkBranch; rw [hst, hov, hm]; rfl)⟩
    exfalso
    have hk2 := hk
    simp only [mandatoryKeys] at hk2
    simp at hk2
    rcases hk2 with rfl | rfl | rfl <;> simp_all
  by_cases hCi : st = "Circular"
  · subst hCi
    rcases hc : kw "current" with _ | cv
    · exact ⟨"current", by decide, hc,
        herr _ (by unfold buildTileParams mkBranch; rw [hst, hov, hc]; rfl)⟩
    rcases hd : kw "diameter" with _ | dv
    · exact ⟨"diameter", by decide, hd,
        herr _ (by unfold buildTileParams mkBranch; rw [hst, hov, hc, hd]; rfl)⟩
    exfalso
    have hk2 := hk
    simp only [mandatoryKeys] at hk2
    simp at hk2
    rcases hk2 with rfl | rfl | rfl | rfl <;> simp_all
  by_cases hL : st = "Line"
  · subst hL
    rcases hc : kw "current" with _ | cv
    · exact ⟨"current", by decide, hc,
        herr _ (by unfold buildTileParams mkBranch; rw [hst, hov, hc]; rfl)⟩
    rcases hs : kw "segment_start" with _ | sv
    · exact ⟨"segment_start", by decide, hs,
        herr _ (by unfold buildTileParams mkBranch; rw [hst, hov, hc, hs]; rfl)⟩
    rcases he : kw "segment_end" with _ | ev
    · exact ⟨"segment_end", by decide, he,
        herr _ (by unfold buildTileParams mkBranch; rw [hst, hov, hc, hs, he]; rfl)⟩
    exfalso
    have hk2 := hk
    simp only [mandatoryKeys] at hk2
    simp at hk2
    rcases hk2 with rfl | rfl | rfl | rfl | rfl <;> simp_all
  exfalso
  have hk2 := hk
  simp only [mandatoryKeys, if_neg hB, if_neg hC, if_neg hS, if_neg hD,
    if_neg hCi, if_neg hL] at hk2
  simp at hk2
  rcases hk2 with rfl | rfl <;> simp_all

/-- A Box call missing its `dimension` key. -/
def kwC4 : Kw := mkKw [("source_type", .str "Box"),
  ("observer", .arr (row3 1 0 0)), ("magnetization", .arr (row3 0 0 1))]

/-- Witness for C4: a Box call with `dimension` omitted. -/
theorem C4_missing_key_witness :
    kwC4 "source_type" = some (.str "Box") ∧ "dimension" ∈ mandatoryKeys "Box" ∧
    kwC4 "dimension" = none ∧
    ∃ k0, k0 ∈ mandatoryKeys "Box" ∧ kwC4 k0 = none ∧
      ∀ lv, getBHv_level2 lv kwC4 = .error (missingMsg k0) :=
  ⟨rfl, by decide, rfl, C4_missing_key kwC4 "Box" "dimension" rfl (by decide) rfl⟩

/-
Kernel edge-case lemmas and the Collection lemmas.
-/

lemma dot3_self_nonneg (r : V3) : 0 ≤ dot3 r r := by
  unfold dot3
  have h1 := mul_self_nonneg r.1
  have h2 := mul_self_nonneg r.2.1
  have h3 := mul_self_nonneg r.2.2
  linarith

lemma dipoleField_zero_moment (r : V3) : dipoleField 0 r = 0 := by
  unfold dipoleField
  split
  · rfl
  · have h1 : dot3 (0 : V3) r = 0 := by
      unfold dot3
      simp
    rw [h1]
    simp

/-- C7 (spec-modelled kernels): a Box with all-zero dimension, a Sphere
with zero diameter, and a Circular or Line source with zero current all
produce the exact zero field vector at every observer point — the
degenerate geometry collapses the closed-form solutions to zero rather
than to a singular expression. -/
theorem C7_zero_geometry (mag : V3) (D cur : ℝ) (a b r : V3) :
    boxField mag 0 r = 0 ∧ sphereField mag 0 r = 0 ∧
    circularField 0 D r = 0 ∧ lineField 0 a b r = 0 := by
  refine ⟨?_, ?_, ?_, ?_⟩
  · unfold boxField faceIntegral
    norm_num [intervalIntegral.integral_same]
  · unfold sphereField
    rw [if_neg (by
      rw [show ((0:ℝ)/2)^2 = 0 by norm_num]
      exact not_lt.mpr (dot3_self_nonneg r))]
    rw [show (Real.pi * (0:ℝ)^3/6) = 0 by ring, zero_smul]
    exact dipoleField_zero_moment r
  · unfold circularField
    rw [zero_div, zero_smul]
  · unfold lineField
    split
    · rfl
    · rw [zero_div, zero_smul]

lemma cdAux_nodup (acc l : List SrcObj) (h : acc.Nodup) : (cdAux acc l).Nodup := by
  induction l generalizing acc with
  | nil => exact h
  | cons x xs ih =>
    simp only [cdAux]
    by_cases hx : x ∈ acc
    · rw [if_pos hx]
      exact ih acc h
    · rw [if_neg hx]
      apply ih
      simp [List.nodup_append, h, hx]

lemma mem_cdAux (y : SrcObj) (acc l : List SrcObj) :
    y ∈ cdAux acc l ↔ y ∈ acc ∨ y ∈ l := by
  induction l generalizing acc with
  | nil => simp [cdAux]
  | cons x xs ih =>
    simp only [cdAux]
    by_cases hx : x ∈ acc
    · rw [if_pos hx, ih]
      constructor
      · rintro (h | h)
        · exact Or.inl h
        · exact Or.inr (List.mem_cons.mpr (Or.inr h))
      · rintro (h | h)
        · exact Or.inl h
        · rcases List.mem_cons.mp h with h | h
          · exact Or.inl (h ▸ hx)
          · exact Or.inr h
    · rw [if_neg hx, ih]
      simp only [List.mem_append, List.mem_singleton, List.mem_cons]
      tauto

lemma check_duplicates_nodup (l : List SrcObj) : (check_duplicates l).Nodup :=
  cdAux_nodup [] l List.nodup_nil

lemma mem_check_duplicates (y : SrcObj) (l : List SrcObj) :
    y ∈ check_duplicates l ↔ y ∈ l := by
  unfold check_duplicates
  rw [mem_cdAux]
  simp

/-- Objects of a class outside the six designated source types (e.g. a
Sensor) — used to exercise the type restriction. -/
def sensorObj : SrcObj := ⟨1, "Sensor"⟩

/-- Counterexample to C8: starting from an empty Collection, `add`-ing an
object of an unsupported type stores it — `Collection.add` deduplicates
but never applies the allowed-source-types restriction, so the resulting
source list violates the claimed type invariant. -/
theorem C8_counterexample :
    add_sources (sources_setter (.lst [])) (.src sensorObj) = [sensorObj] ∧
    sensorObj.objType ∉ knownSrcTypes ∧
    ¬ ∀ s ∈ add_sources (sources_setter (.lst [])) (.src sensorObj),
        s.objType ∈ knownSrcTypes := by
  refine ⟨rfl, by decide, ?_⟩
  decide

/-- C8 (amended): assignment through the `sources` setter (construction)
establishes both invariants — no duplicate instances and only designated
source types; `add` (and hence `+`) re-establishes only the no-duplicates
invariant, as it bypasses the type restriction. -/
theorem C8_invariants :
    (∀ inp : ObjInput, (sources_setter inp).Nodup ∧
      ∀ s ∈ sources_setter inp, s.objType ∈ knownSrcTypes) ∧
    (∀ (cur : List SrcObj) (inp : ObjInput), (add_sources cur inp).Nodup) := by
  refine ⟨fun inp => ⟨?_, ?_⟩, fun _ _ => check_duplicates_nodup _⟩
  · exact List.Nodup.filter _ (check_duplicates_nodup _)
  · intro s hs
    unfold sources_setter only_allowed_src_types at hs
    simpa using (List.mem_filter.mp hs).2

/-- C10: `Collection.add` and the `+` operator mutate the Collection in
place — the heap cell at the Collection's address is updated, every other
heap cell is untouched, no new Collection is allocated, and the returned
reference is the same address; `+` is literally `add` on the one-element
tuple.  Likewise `-`/`remove` removes the (first occurrence of the) given
source in place and returns the same address. -/
theorem C10_in_place_mutation (h : ColHeap) (a : Nat) (s : SrcObj) (inp : ObjInput)
    (ha : a < h.length) :
    ((colAdd h a inp).2 = a ∧ (colAdd h a inp).1.length = h.length ∧
      (colAdd h a inp).1.getD a [] = add_sources (h.getD a []) inp ∧
      ∀ b, b ≠ a → (colAdd h a inp).1.getD b [] = h.getD b []) ∧
    (dunderAdd h a s = colAdd h a (.lst [.src s]) ∧
      s ∈ (dunderAdd h a s).1.getD a []) ∧
    (s ∈ h.getD a [] →
      (dunderSub h a s).2 = a ∧ (dunderSub h a s).1.length = h.length ∧
      (dunderSub h a s).1.getD a [] = (h.getD a []).erase s ∧
      ∀ b, b ≠ a → (dunderSub h a s).1.getD b [] = h.getD b []) := by
  have hset : ∀ v : List SrcObj, (h.set a v).getD a [] = v := by
    intro v
    simp [List.getD, List.getElem?_set_self', List.getElem?_eq_getElem ha]
  have hset' : ∀ (v : List SrcObj) (b : Nat), b ≠ a → (h.set a v).getD b [] = h.getD b [] := by
    intro v b hb
    simp [List.getD, List.getElem?_set_ne (by omega : a ≠ b)]
  refine ⟨⟨rfl, by simp [colAdd], hset _, fun b hb => hset' _ b hb⟩,
    ⟨rfl, ?_⟩, fun hmem => ⟨rfl, by simp [dunderSub, colRemove], hset _,
      fun b hb => hset' _ b hb⟩⟩
  show s ∈ (colAdd h a (.lst [.src s])).1.getD a []
  rw [show (colAdd h a (.lst [.src s])).1 = h.set a
    (add_sources (h.getD a []) (.lst [.src s])) from rfl, hset]
  unfold add_sources
  rw [mem_check_duplicates]
  simp [format_obj_input, formatObjList]

/-- Witness for C10 at a concrete heap: one Collection at address 0
holding one source. -/
theorem C10_in_place_mutation_witness :
    (let h0 : ColHeap := [[⟨0, "Box"⟩]]
     (colAdd h0 0 (.src ⟨2, "Sphere"⟩)).2 = 0 ∧
      (colAdd h0 0 (.src ⟨2, "Sphere"⟩)).1.length = h0.length ∧
      (colAdd h0 0 (.src ⟨2, "Sphere"⟩)).1.getD 0 [] =
        add_sources (h0.getD 0 []) (.src ⟨2, "Sphere"⟩) ∧
      ∀ b, b ≠ 0 → (colAdd h0 0 (.src ⟨2, "Sphere"⟩)).1.getD b [] = h0.getD b []) ∧
    (let h0 : ColHeap := [[⟨0, "Box"⟩]]
     dunderAdd h0 0 ⟨2, "Sphere"⟩ = colAdd h0 0 (.lst [.src ⟨2, "Sphere"⟩]) ∧
      (⟨2, "Sphere"⟩ : SrcObj) ∈ (dunderAdd h0 0 ⟨2, "Sphere"⟩).1.getD 0 []) ∧
    ((⟨0, "Box"⟩ : SrcObj) ∈ ([[⟨0, "Box"⟩]] : ColHeap).getD 0 [] →
      (dunderSub [[⟨0, "Box"⟩]] 0 ⟨0, "Box"⟩).2 = 0 ∧
      (dunderSub [[⟨0, "Box"⟩]] 0 ⟨0, "Box"⟩).1.length =
        ([[⟨0, "Box"⟩]] : ColHeap).length ∧
      (dunderSub [[⟨0, "Box"⟩]] 0 ⟨0, "Box"⟩).1.getD 0 [] =
        (([[⟨0, "Box"⟩]] : ColHeap).getD 0 []).erase ⟨0, "Box"⟩ ∧
      ∀ b, b ≠ 0 → (dunderSub [[⟨0, "Box"⟩]] 0 ⟨0, "Box"⟩).1.getD b [] =
        ([[⟨0, "Box"⟩]] : ColHeap).getD b []) := by
  refine ⟨?_, ?_, ?_⟩
  · exact (C10_in_place_mutation [[⟨0, "Box"⟩]] 0 ⟨2, "Sphere"⟩ (.src ⟨2, "Sphere"⟩)
      (by decide)).1
  · exact (C10_in_place_mutation [[⟨0, "Box"⟩]] 0 ⟨2, "Sphere"⟩ (.src ⟨2, "Sphere"⟩)
      (by decide)).2.1
  · exact (C10_in_place_mutation [[⟨0, "Box"⟩]] 0 ⟨0, "Box"⟩ (.src ⟨0, "Box"⟩)
      (by decide)).2.2
